import Mathlib

/-!
# Verification of the `apiFactory` REST client (src/lib/api.js)

A shallow embedding of the API-client factory of this repository.  JavaScript
runtime values are modelled by `JSValue`; the body of the `async` closure
produced by `requestFactory` is modelled by `runApiCall`, which returns the
trace of externally visible events (the fetch and the two store dispatches)
together with the value the call settles on, or the thrown string.  The
transport is mocked by passing the parsed response body (`responseBody`) as an
argument, and `localStorage.authToken` by the `authToken` argument.

The object-building part of `apiFactory` (`crossProduct` / `toObject` /
`reduce`) is embedded over association lists, which model JavaScript objects
whose keys are added in insertion order and overwritten in place.
-/

set_option maxHeartbeats 1000000

namespace ApiJs

/-- A JavaScript runtime value, as far as `api.js` inspects one: `undefined`,
`null`, booleans, numbers (the ids occurring here are integers), strings,
arrays and plain objects.  Objects are association lists in insertion order;
all objects built by the embedded code keep their keys distinct. -/
inductive JSValue : Type where
  | undefined : JSValue
  | null : JSValue
  | bool : Bool → JSValue
  | num : Int → JSValue
  | str : String → JSValue
  | arr : List JSValue → JSValue
  | obj : List (String × JSValue) → JSValue

/-- JavaScript truthiness: `undefined`, `null`, `false`, `0` and `""` are
falsy, every other value (including every object and array) is truthy. -/
def jsTruthy : JSValue → Bool
  | .undefined => false
  | .null => false
  | .bool b => b
  | .num n => n != 0
  | .str s => s != ""
  | .arr _ => true
  | .obj _ => true

/-- Whether a value is exactly `undefined` (JavaScript `x === undefined`). -/
def jsIsUndefined : JSValue → Bool
  | .undefined => true
  | _ => false

/-- Whether a value is an array (lodash `isArray`). -/
def jsIsArray : JSValue → Bool
  | .arr _ => true
  | _ => false

/-- JavaScript logical negation `!v`: a boolean, the negated truthiness. -/
def jsNot (v : JSValue) : JSValue := .bool (!jsTruthy v)

/-- JavaScript strict equality `===` on primitive values.  Values of distinct
primitive types are never strictly equal.  Arrays and objects compare by
reference in JavaScript; the embedded code only ever applies `===` at
primitive types, so the embedding returns `false` there, matching the fact
that a freshly produced boolean is never reference-equal to anything else. -/
def jsStrictEq : JSValue → JSValue → Bool
  | .undefined, .undefined => true
  | .null, .null => true
  | .bool a, .bool b => a == b
  | .num a, .num b => a == b
  | .str a, .str b => a == b
  | _, _ => false

/-- First binding of a key in an object's field list. -/
def objLookup (k : String) : List (String × JSValue) → Option JSValue
  | [] => none
  | (k', v) :: rest => if k' == k then some v else objLookup k rest

/-- JavaScript property read `v.k` as the embedded code uses it: a field of a
plain object, `undefined` when the key is absent or the value is not an
object (the code only reads fields through optional chaining or from values
it just built). -/
def getField (v : JSValue) (k : String) : JSValue :=
  match v with
  | .obj fs => (objLookup k fs).getD .undefined
  | _ => .undefined

/-- `data?.id`-style read: `data` may be absent altogether (the parameter was
not passed, i.e. `undefined`). -/
def getMember (data : Option JSValue) (k : String) : JSValue :=
  match data with
  | none => .undefined
  | some v => getField v k

/-- Whether `data` is an object that has the key `k` at all (used to state
claims about "`data` containing / lacking an `id` field"). -/
def hasField (data : Option JSValue) (k : String) : Bool :=
  match data with
  | some (.obj fs) => fs.any (fun p => p.1 == k)
  | _ => false

/-- JavaScript `a || b`. -/
def jsOr (a b : JSValue) : JSValue := if jsTruthy a then a else b

/-- Whether a value is `null` or `undefined`. -/
def jsIsNullish : JSValue → Bool
  | .undefined => true
  | .null => true
  | _ => false

mutual

/-- JavaScript `String(v)` for the values this code stringifies (ids placed
into URLs, ids used as `keyBy` keys).  `Array.prototype.join` renders `null`
and `undefined` elements as the empty string, which `joinElems` follows. -/
def jsToString : JSValue → String
  | .undefined => "undefined"
  | .null => "null"
  | .bool b => cond b "true" "false"
  | .num n => toString n
  | .str s => s
  | .arr xs => String.intercalate "," (joinElems xs)
  | .obj _ => "[object Object]"

/-- The per-element string conversions of `Array.prototype.join`. -/
def joinElems : List JSValue → List String
  | [] => []
  | v :: vs => (if jsIsNullish v then "" else jsToString v) :: joinElems vs

end

/-- Minimal JSON escaping of a string body (quotes and backslashes). -/
def jsonEscape (s : String) : String :=
  String.mk (s.data.foldr (fun c acc =>
    if c = '"' then '\\' :: '"' :: acc else
    if c = '\\' then '\\' :: '\\' :: acc else c :: acc) [])

mutual

/-- `JSON.stringify(v)`: `none` when the result is `undefined` (stringifying
`undefined` itself).  Fields whose value stringifies to `undefined` are
skipped; array elements that do are rendered as `null`. -/
def jsonStringify : JSValue → Option String
  | .undefined => none
  | .null => some "null"
  | .bool b => some (cond b "true" "false")
  | .num n => some (toString n)
  | .str s => some ("\"" ++ jsonEscape s ++ "\"")
  | .arr xs => some ("[" ++ String.intercalate "," (jsonElems xs) ++ "]")
  | .obj fs => some ("\x7b" ++ String.intercalate "," (jsonFields fs) ++ "\x7d")

/-- JSON rendering of array elements (`undefined` becomes `null`). -/
def jsonElems : List JSValue → List String
  | [] => []
  | v :: vs => (jsonStringify v).getD "null" :: jsonElems vs

/-- JSON rendering of object fields (`undefined`-valued fields are skipped). -/
def jsonFields : List (String × JSValue) → List String
  | [] => []
  | (k, v) :: fs =>
      match jsonStringify v with
      | none => jsonFields fs
      | some s => ("\"" ++ jsonEscape k ++ "\":" ++ s) :: jsonFields fs

end

/-- `JSON.stringify(data)` where `data` may be the absent argument. -/
def jsonStringifyData (data : Option JSValue) : Option String :=
  jsonStringify (data.getD .undefined)

/-- Object assignment `o[k] = v`: overwrite the binding in place when the key
exists, append it otherwise (JavaScript property-insertion order). -/
def setKey {α : Type} (fs : List (String × α)) (k : String) (v : α) :
    List (String × α) :=
  match fs with
  | [] => [(k, v)]
  | (k', v') :: rest =>
      if k' == k then (k, v) :: rest else (k', v') :: setKey rest k v

/-- lodash `keyBy(xs, "id")`: an object assigning each element to the string
conversion of its `id` field, in order, later elements overwriting earlier
ones on key collision. -/
def keyBy (xs : List JSValue) (k : String) : List (String × JSValue) :=
  xs.foldl (fun acc e => setKey acc (jsToString (getField e k)) e) []

/-- ASCII `String.prototype.toUpperCase()` (the action-type strings built
here are ASCII verb and resource names). -/
def asciiUpper (s : String) : String :=
  String.mk (s.data.map Char.toUpper)

/-- Splitting a character list into maximal alphanumeric words, dropping the
separators; `acc` holds the (reversed) word being read. -/
def wordsAux : List Char → List Char → List String
  | [], acc => if acc.isEmpty then [] else [String.mk acc.reverse]
  | c :: cs, acc =>
      if c.isAlphanum then wordsAux cs (c :: acc)
      else if acc.isEmpty then wordsAux cs []
      else String.mk acc.reverse :: wordsAux cs []

/-- The words lodash `camelCase` sees in the ASCII snake/space/kebab inputs
this code builds (`"update_" + resourceName`). -/
def camelWords (s : String) : List String :=
  wordsAux s.data []

/-- Capitalize the first character, lowercase the rest. -/
def capitalizeWord (w : String) : String :=
  match w.data with
  | [] => ""
  | c :: cs => String.mk (c.toUpper :: cs.map Char.toLower)

/-- lodash `camelCase` (on the fragment described at `camelWords`): the first
word lowercased, the following words capitalized, all joined. -/
def camelCase (s : String) : String :=
  match camelWords s with
  | [] => ""
  | w :: ws =>
      String.join (String.mk (w.data.map Char.toLower) :: ws.map capitalizeWord)

/-- The `options` object handed to `fetch`: verb, `Authorization` header,
the `json: true` flag, and the optional `body`. -/
structure FetchOptions : Type where
  method : String
  authorization : String
  json : Bool
  body : Option String

/-- State of the promise handed to `dispatch` as `payload`: the
`(await fetch(url, options)).json()` expression is a promise that has not
been awaited when the dispatch happens. -/
inductive PromiseState : Type where
  | pending : PromiseState
  | resolved : JSValue → PromiseState

/-- An externally visible event of one `ApiCall`, in order of occurrence:
the network request, the request-tracking dispatch, and the dispatch of the
resource's update action (looked up in the state-map adapter's `actions`
registry under `actionKey`) carrying the normalized value. -/
inductive Event : Type where
  | fetch : String → FetchOptions → Event
  | dispatchTracking : String → PromiseState → Event
  | dispatchUpdate : String → JSValue → Event

/-- The operation-name → HTTP-verb table `methods` of `apiFactory`. -/
def methodsTable : List (String × String) :=
  [("create", "post"), ("read", "get"), ("get", "get"),
   ("update", "patch"), ("delete", "delete")]

/-- The error message thrown when `create` is called with a (truthy) id. -/
def postIdError : String :=
  "can't post with an id. Id creation is the responsibility of the backend"

/-- The error message thrown when `update`/`delete` lacks an id; it names the
resource and the HTTP method. -/
def missingIdError (resourceName method : String) : String :=
  "missing id in call:\n       resource: " ++ resourceName ++
    "\n       method: " ++ method

/-- `const url = [baseURL, resourceName, id || ""].join("/");` -/
def buildUrl (baseURL resourceName : String) (id : JSValue) : String :=
  String.intercalate "/" [baseURL, resourceName, jsToString (jsOr id (.str ""))]

/-- The guard of `if (!method === "get") options.body = body;` — note that
negation binds first in the source, so this compares a boolean with the
string `"get"`. -/
def bodyGuard (method : String) : Bool :=
  jsTruthy (.bool (jsStrictEq (jsNot (.str method)) (.str "get")))

/-- The `options` object as built by the source (method, bearer header,
`json: true`), with `body` assigned only when `bodyGuard` holds. -/
def buildOptions (method authToken : String) (data : Option JSValue) :
    FetchOptions :=
  { method := method
    authorization := "Bearer " ++ authToken
    json := true
    body := if bodyGuard method then jsonStringifyData data else none }

/-- `isArray(value) && (value = keyBy(value, "id"));` — arrays become objects
keyed by each element's stringified `id`, everything else passes through. -/
def normalizeValue : JSValue → JSValue
  | .arr xs => .obj (keyBy xs "id")
  | v => v

/-- The body of the `async` function returned by
`requestFactory(resourceName, method)` (`method` is the HTTP verb looked up
in `methodsTable`), run against a mocked transport: `responseBody` is the
value the response's `.json()` promise settles on, and `authToken` is
`localStorage.authToken`.  An `Except.error` is the thrown string; a throw
produces an empty event trace (it happens before any network activity).
`userOptions` is ignored by the source and hence not modelled. -/
def runApiCall (baseURL resourceName method authToken : String)
    (data : Option JSValue) (responseBody : JSValue) :
    List Event × Except String JSValue :=
  if method == "post" && jsTruthy (getMember data "id") then
    ([], .error postIdError)
  else if (method == "patch" || method == "delete")
      && jsIsUndefined (getMember data "id") then
    ([], .error (missingIdError resourceName method))
  else
    ([.fetch (buildUrl baseURL resourceName (getMember data "id"))
        (buildOptions method authToken data),
      .dispatchTracking (asciiUpper (method ++ "_" ++ resourceName)) .pending,
      .dispatchUpdate (camelCase ("update_" ++ resourceName))
        (normalizeValue responseBody)],
     .ok (normalizeValue responseBody))

/-- Modelled from the spec: the cross-product utility of `src/lib/utils.js`
(the file itself is not in the sources given).  §4.1: "given two ordered
sequences A and B, produce an ordered sequence of all pairs (a, b) for a in
A, b in B, preserving A-major, B-minor ordering". -/
def crossProduct {α β : Type} (A : List α) (B : List β) : List (α × β) :=
  (A.map fun a => B.map fun b => (a, b)).flatten

/-- The `toObject` reducer of `api.js`: given the object built so far and a
`[resource, method, func]` triple, assign `obj[resource][method] = func`,
creating `obj[resource] = {[method]: func}` when the resource key is absent
(`obj[resource]` is truthy exactly when present, since its value is an
object). -/
def toObject {F : Type} (obj : List (String × List (String × F)))
    (e : String × String × F) : List (String × List (String × F)) :=
  if obj.any (fun p => p.1 == e.1) then
    obj.map fun p => if p.1 == e.1 then (p.1, setKey p.2 e.2.1 e.2.2) else p
  else
    obj ++ [(e.1, [(e.2.1, e.2.2)])]

/-- The request function produced by `requestFactory(resourceName, method)`,
as a closure over the factory's parameters; applying it to the call's `data`
and the mocked response body runs `runApiCall`. -/
def requestFactory (baseURL authToken resourceName method : String) :
    Option JSValue → JSValue → List Event × Except String JSValue :=
  fun data responseBody =>
    runApiCall baseURL resourceName method authToken data responseBody

/-- The object-construction core of `apiFactory`, generic in what
`requestFactory` returns: the cross product of the resource names with the
operation names of `methodsTable`, each triple
`[resource, method, requestFactory(resource, methods[method])]`, reduced by
`toObject` from the empty object. -/
def apiBuild {F : Type} (resourceNames : List String)
    (mkReq : String → String → F) : List (String × List (String × F)) :=
  ((crossProduct resourceNames (methodsTable.map Prod.fst)).map fun rm =>
      (rm.1, rm.2, mkReq rm.1 ((methodsTable.lookup rm.2).getD ""))).foldl
    toObject []

/-- `apiFactory(baseURL, stateMap, dispatch)`: `resourceNames` is
`Object.keys(stateMap)` (hence without duplicates), and each produced entry
binds the closure returned by `requestFactory`. -/
def apiFactory (baseURL authToken : String) (resourceNames : List String) :
    List (String × List (String ×
      (Option JSValue → JSValue → List Event × Except String JSValue))) :=
  apiBuild resourceNames (requestFactory baseURL authToken)

/-- The inner object `apiFactory` ends up building for one resource: the five
operation names, each bound to the request function for the verb the
`methodsTable` assigns to that operation. -/
def innerFor {F : Type} (mkReq : String → String → F) (r : String) :
    List (String × F) :=
  [("create", mkReq r "post"), ("read", mkReq r "get"), ("get", mkReq r "get"),
   ("update", mkReq r "patch"), ("delete", mkReq r "delete")]

/-- The five `[resource, method, requestFactory(resource, methods[method])]`
triples the cross product contributes for one resource, in order. -/
def blockFor {F : Type} (mkReq : String → String → F) (r : String) :
    List (String × String × F) :=
  [(r, "create", mkReq r "post"), (r, "read", mkReq r "get"),
   (r, "get", mkReq r "get"), (r, "update", mkReq r "patch"),
   (r, "delete", mkReq r "delete")]

/- ### Helper lemmas -/

theorem objLookup_eq_none {k : String} {fs : List (String × JSValue)}
    (h : fs.any (fun p => p.1 == k) = false) : objLookup k fs = none := by
  induction fs with
  | nil => rfl
  | cons p rest ih =>
      rw [List.any_cons, Bool.or_eq_false_iff] at h
      obtain ⟨p1, p2⟩ := p
      simp only [objLookup, h.1, ih h.2]
      simp [h.1]

theorem getMember_eq_undefined_of_not_hasField {data : Option JSValue} {k : String}
    (h : hasField data k = false) : getMember data k = .undefined := by
  match data with
  | none => rfl
  | some .undefined | some .null | some (.bool _) | some (.num _)
  | some (.str _) | some (.arr _) => rfl
  | some (.obj fs) =>
      simp only [hasField] at h
      simp [getMember, getField, objLookup_eq_none h]

theorem jsIsUndefined_eq_true_iff {v : JSValue} : jsIsUndefined v = true ↔ v = .undefined := by
  cases v <;> simp [jsIsUndefined]

theorem jsTruthy_undefined : jsTruthy .undefined = false := rfl

theorem bodyGuard_eq_false (m : String) : bodyGuard m = false := rfl

theorem getMember_id_singleton (idv : JSValue) :
    getMember (some (.obj [("id", idv)])) "id" = idv := by
  simp [getMember, getField, objLookup]

theorem intercalate_three (s a b c : String) :
    String.intercalate s [a, b, c] = a ++ s ++ b ++ s ++ c := by
  unfold String.intercalate
  unfold String.intercalate.go
  unfold String.intercalate.go
  unfold String.intercalate.go
  simp [String.append_assoc]

theorem buildUrl_falsy {base r : String} {id : JSValue}
    (h : jsTruthy id = false) : buildUrl base r id = base ++ "/" ++ r ++ "/" := by
  simp [buildUrl, jsOr, h, intercalate_three, jsToString]

theorem buildUrl_truthy {base r : String} {id : JSValue}
    (h : jsTruthy id = true) :
    buildUrl base r id = base ++ "/" ++ r ++ "/" ++ jsToString id := by
  simp [buildUrl, jsOr, h, intercalate_three]

theorem setKey_append_of_forall_ne {α : Type} (fs : List (String × α))
    (k : String) (v : α) (h : ∀ p ∈ fs, p.1 ≠ k) :
    setKey fs k v = fs ++ [(k, v)] := by
  induction fs with
  | nil => rfl
  | cons p rest ih =>
      obtain ⟨p1, p2⟩ := p
      have h1 : p1 ≠ k := h (p1, p2) (List.mem_cons_self _ _)
      simp only [setKey]
      rw [if_neg (by simp [h1]), ih (fun q hq => h q (List.mem_cons_of_mem _ hq))]
      rfl

theorem foldl_setKey (f : JSValue → String) (xs : List JSValue) :
    ∀ acc : List (String × JSValue),
    (∀ e ∈ xs, ∀ p ∈ acc, p.1 ≠ f e) → (xs.map f).Nodup →
    xs.foldl (fun a e => setKey a (f e) e) acc = acc ++ xs.map fun e => (f e, e) := by
  induction xs with
  | nil => intro acc _ _; simp
  | cons x xs ih =>
      intro acc hacc hnd
      have hparts : (∀ y ∈ xs, ¬ f y = f x) ∧ (List.map f xs).Nodup := by
        simpa using hnd
      simp only [List.foldl_cons, List.map_cons]
      rw [setKey_append_of_forall_ne _ _ _
        (fun p hp => hacc x (List.mem_cons_self _ _) p hp)]
      rw [ih _ ?_ ?_]
      · simp
      · intro e he p hp
        rcases List.mem_append.mp hp with hp | hp
        · exact hacc e (List.mem_cons_of_mem _ he) p hp
        · have hpx : p = (f x, x) := by simpa using hp
          subst hpx
          show f x ≠ f e
          exact fun hfe => hparts.1 e he hfe.symm
      · exact hparts.2

theorem keyBy_eq_map (xs : List JSValue) (k : String)
    (h : (xs.map fun e => jsToString (getField e k)).Nodup) :
    keyBy xs k = xs.map fun e => (jsToString (getField e k), e) := by
  have := foldl_setKey (fun e => jsToString (getField e k)) xs [] (by simp) h
  simpa [keyBy] using this

theorem toObject_append_same {F : Type} (obj : List (String × List (String × F)))
    (r m : String) (f : F) (inner : List (String × F))
    (h : obj.any (fun p => p.1 == r) = false) :
    toObject (obj ++ [(r, inner)]) (r, m, f) = obj ++ [(r, setKey inner m f)] := by
  unfold toObject
  rw [if_pos]
  · rw [List.map_append]
    congr 1
    · conv_rhs => rw [← List.map_id obj]
      apply List.map_congr_left
      intro p hp
      have hf : (p.1 == r) = false := by
        have := List.any_eq_false.mp h p hp
        simpa using this
      simp [hf]
    · simp
  · rw [List.any_append]
    simp

theorem foldl_blockFor {F : Type} (mkReq : String → String → F)
    (obj : List (String × List (String × F))) (r : String)
    (h : obj.any (fun p => p.1 == r) = false) :
    (blockFor mkReq r).foldl toObject obj = obj ++ [(r, innerFor mkReq r)] := by
  simp only [blockFor, List.foldl_cons, List.foldl_nil]
  have h0 : toObject obj (r, "create", mkReq r "post") =
      obj ++ [(r, [("create", mkReq r "post")])] := by
    unfold toObject
    rw [if_neg (by simp [h])]
  rw [h0, toObject_append_same _ _ _ _ _ h, toObject_append_same _ _ _ _ _ h,
      toObject_append_same _ _ _ _ _ h, toObject_append_same _ _ _ _ _ h]
  rfl

theorem foldl_blocks {F : Type} (mkReq : String → String → F) (rs : List String) :
    ∀ obj, (∀ r ∈ rs, obj.any (fun p => p.1 == r) = false) → rs.Nodup →
    ((rs.map (blockFor mkReq)).flatten).foldl toObject obj =
      obj ++ rs.map fun r => (r, innerFor mkReq r) := by
  induction rs with
  | nil => intro obj _ _; simp
  | cons r rs ih =>
      intro obj h hnd
      simp only [List.map_cons, List.flatten_cons, List.foldl_append]
      rw [foldl_blockFor _ _ _ (h r (List.mem_cons_self _ _))]
      rw [ih _ ?_ ?_]
      · simp
      · intro r' hr'
        rw [List.any_append]
        have h1 : obj.any (fun p => p.1 == r') = false :=
          h r' (List.mem_cons_of_mem _ hr')
        have h2 : r ≠ r' := by
          intro e
          exact (List.nodup_cons.mp hnd).1 (e ▸ hr')
        simp [h1, h2]
      · exact (List.nodup_cons.mp hnd).2

theorem apiBuild_eq_foldl {F : Type} (mkReq : String → String → F)
    (rs : List String) :
    apiBuild rs mkReq = ((rs.map (blockFor mkReq)).flatten).foldl toObject [] := by
  unfold apiBuild crossProduct
  congr 1
  rw [List.map_flatten, List.map_map]
  congr 1

theorem apiBuild_eq {F : Type} (mkReq : String → String → F) (rs : List String)
    (hnd : rs.Nodup) :
    apiBuild rs mkReq = rs.map fun r => (r, innerFor mkReq r) := by
  rw [apiBuild_eq_foldl, foldl_blocks mkReq rs [] (fun r _ => rfl) hnd]
  simp

theorem lookup_map_inner {F : Type} (mkReq : String → String → F) (r : String) :
    ∀ rs : List String, r ∈ rs →
    (rs.map fun x => (x, innerFor mkReq x)).lookup r = some (innerFor mkReq r) := by
  intro rs
  induction rs with
  | nil => intro h; cases h
  | cons r' rs ih =>
      intro hr
      rw [List.map_cons]
      by_cases he : r = r'
      · subst he
        simp [List.lookup]
      · have hm : r ∈ rs := by
          rcases List.mem_cons.mp hr with h | h
          · exact absurd h he
          · exact h
        have hb : (r == r') = false := by simpa using he
        simp [List.lookup, hb, ih hm]

/- ### Claim theorems -/

/-- C1: contrary to the spec, NO request ever carries a body — the guard
`if (!method === "get")` compares the boolean `!method` (always `false` for
the nonempty verb strings) with the string `"get"`, so it never holds; the
spec's §9 itself flags this as a latent defect, and the spec's intent
("unless the verb is GET, attaches a JSON-serialized request body") is
contradicted by the code.  This theorem exhibits the divergence: every
`fetch` issued by any `ApiCall` has `body = none`, whatever the verb. -/
theorem every_request_lacks_a_body (base r m tok : String)
    (data : Option JSValue) (resp : JSValue) (u : String) (o : FetchOptions)
    (h : Event.fetch u o ∈ (runApiCall base r m tok data resp).1) :
    o.body = none := by
  unfold runApiCall at h
  split at h
  · simp at h
  · split at h
    · simp at h
    · simp only [List.mem_cons, List.not_mem_nil, or_false] at h
      rcases h with h | h | h
      · injection h with h1 h2
        subst h2
        simp [buildOptions, bodyGuard_eq_false]
      · exact Event.noConfusion h
      · exact Event.noConfusion h

/-- Witness for C1: the failing input of the claim — `create` on resource
`book` with `data = ⦃title: "X"⦄` issues a POST whose options carry no body,
although the spec requires the body `{"title":"X"}` on the non-GET verb. -/
theorem every_request_lacks_a_body_witness :
    Event.fetch "api/book/" (buildOptions "post" "t" (some (.obj [("title", .str "X")])))
      ∈ (runApiCall "api" "book" "post" "t" (some (.obj [("title", .str "X")])) (.obj [])).1 ∧
    (buildOptions "post" "t" (some (.obj [("title", .str "X")]))).body = none :=
  ⟨List.Mem.head _,
   every_request_lacks_a_body "api" "book" "post" "t"
     (some (.obj [("title", .str "X")])) (.obj []) "api/book/"
     (buildOptions "post" "t" (some (.obj [("title", .str "X")])))
     (List.Mem.head _)⟩

/-- C2 (counterexample): the claim says a `create` call whose `data` contains
an `id` field throws before any network request; with the falsy id `0` the
call does not throw — it resolves and issues a fetch. -/
theorem create_with_zero_id_counterexample :
    (runApiCall "api" "book" "post" "t" (some (.obj [("id", .num 0)])) (.obj [])).1.head? =
      some (.fetch "api/book/" (buildOptions "post" "t" (some (.obj [("id", .num 0)])))) ∧
    (runApiCall "api" "book" "post" "t" (some (.obj [("id", .num 0)])) (.obj [])).2 =
      .ok (.obj []) := by
  constructor
  · rfl
  · rfl

/-- C2 (amended): a `create` call whose `data` carries a TRUTHY `id` throws
the `InvalidRequestError` string, with an empty event trace — no network
request is issued. -/
theorem create_with_truthy_id_throws (base r tok : String)
    (data : Option JSValue) (resp : JSValue)
    (h : jsTruthy (getMember data "id") = true) :
    runApiCall base r "post" tok data resp = ([], .error postIdError) := by
  simp [runApiCall, h]

/-- Witness for the amended C2 at `data = ⦃id: 32⦄`. -/
theorem create_with_truthy_id_throws_witness :
    jsTruthy (getMember (some (.obj [("id", .num 32)])) "id") = true ∧
    runApiCall "api" "book" "post" "t" (some (.obj [("id", .num 32)])) (.obj []) =
      ([], .error postIdError) :=
  ⟨by decide,
   create_with_truthy_id_throws "api" "book" "t"
     (some (.obj [("id", .num 32)])) (.obj []) (by decide)⟩

/-- C3: an `update` (verb `patch`) or `delete` call whose `data` lacks an
`id` field throws the `MissingIdError` string — which spells out the
resource and the method — with an empty event trace, so before any network
request. -/
theorem update_delete_without_id_throws (base r v tok : String)
    (data : Option JSValue) (resp : JSValue)
    (hv : v = "patch" ∨ v = "delete") (h : hasField data "id" = false) :
    runApiCall base r v tok data resp = ([], .error (missingIdError r v)) := by
  have hu : getMember data "id" = .undefined := getMember_eq_undefined_of_not_hasField h
  rcases hv with rfl | rfl <;> simp [runApiCall, hu, jsIsUndefined, jsTruthy]

/-- Witness for C3: `api.book.delete({title: "X"})` throws the missing-id
message naming `book` and `delete`. -/
theorem update_delete_without_id_throws_witness :
    hasField (some (.obj [("title", .str "X")])) "id" = false ∧
    runApiCall "api" "book" "delete" "t" (some (.obj [("title", .str "X")])) (.obj []) =
      ([], .error (missingIdError "book" "delete")) :=
  ⟨by decide,
   update_delete_without_id_throws "api" "book" "delete" "t"
     (some (.obj [("title", .str "X")])) (.obj []) (Or.inr rfl) (by decide)⟩

/-- C9: a `create` call whose `data` has an `id` field bound to a FALSY value
(`0`, `""`, `false`, `null`, `undefined`) passes the id validation — the
check `method === "post" && id` tests truthiness — and the call proceeds to
the network request. -/
theorem create_with_falsy_id_proceeds (base r tok : String)
    (idv resp : JSValue) (h : jsTruthy idv = false) :
    runApiCall base r "post" tok (some (.obj [("id", idv)])) resp =
      ([.fetch (buildUrl base r idv)
          (buildOptions "post" tok (some (.obj [("id", idv)]))),
        .dispatchTracking (asciiUpper ("post" ++ "_" ++ r)) .pending,
        .dispatchUpdate (camelCase ("update_" ++ r)) (normalizeValue resp)],
       .ok (normalizeValue resp)) := by
  simp [runApiCall, getMember_id_singleton, h]

/-- C5 (counterexample): the claim says the URL "joins baseURL and R with
nothing after R when the id is absent"; the code joins `[baseURL, R, ""]`,
so an id-less `read` targets `api/book/` — with a trailing slash — not
`api/book`; a present-but-falsy id (`0`) also yields the empty last segment
rather than appearing in the path. -/
theorem request_url_counterexample :
    buildUrl "api" "book" (getMember none "id") = "api/book/" ∧
    (runApiCall "api" "book" "get" "t" none (.obj [])).1.head? =
      some (.fetch "api/book/" (buildOptions "get" "t" none)) ∧
    "api/book/" ≠ "api/book" ∧
    buildUrl "api" "book" (getMember (some (.obj [("id", .num 0)])) "id") = "api/book/" := by
  refine ⟨by decide, rfl, by decide, by decide⟩

/-- C5 (amended): every issued request targets
`{baseURL}/{R}/{id}` when `data?.id` is truthy, and `{baseURL}/{R}/` — an
empty final path segment, i.e. a trailing slash — when the id is absent or
falsy. -/
theorem request_url_shape (base r m tok : String) (data : Option JSValue)
    (resp : JSValue) (u : String) (o : FetchOptions)
    (h : Event.fetch u o ∈ (runApiCall base r m tok data resp).1) :
    u = if jsTruthy (getMember data "id") = true
        then base ++ "/" ++ r ++ "/" ++ jsToString (getMember data "id")
        else base ++ "/" ++ r ++ "/" := by
  unfold runApiCall at h
  split at h
  · simp at h
  · split at h
    · simp at h
    · simp only [List.mem_cons, List.not_mem_nil, or_false] at h
      rcases h with h | h | h
      · injection h with h1 h2
        subst h1
        cases hb : jsTruthy (getMember data "id") with
        | false => rw [if_neg (by simp)]; exact buildUrl_falsy hb
        | true => rw [if_pos rfl]; exact buildUrl_truthy hb
      · exact Event.noConfusion h
      · exact Event.noConfusion h

/-- Witness for the amended C5: `update` with id 32 targets `api/book/32`. -/
theorem request_url_shape_witness :
    buildUrl "api" "book" (getMember (some (.obj [("id", .num 32)])) "id") =
      (if jsTruthy (getMember (some (.obj [("id", .num 32)])) "id") = true
       then "api" ++ "/" ++ "book" ++ "/" ++
         jsToString (getMember (some (.obj [("id", .num 32)])) "id")
       else "api" ++ "/" ++ "book" ++ "/") ∧
    buildUrl "api" "book" (getMember (some (.obj [("id", .num 32)])) "id") = "api/book/32" :=
  ⟨request_url_shape "api" "book" "patch" "t" (some (.obj [("id", .num 32)]))
     (.obj []) _ _ (List.Mem.head _),
   by decide⟩

/-- C7: whenever an `ApiCall` gets past validation (its trace is nonempty),
its second event — raised right after `fetch` resolves, while the response
body's `.json()` promise is still pending — is the request-tracking dispatch
whose action type is the uppercased `"{VERB}_{RESOURCE}"` string and whose
payload is that pending promise. -/
theorem tracking_dispatch_shape (base r m tok : String) (data : Option JSValue)
    (resp : JSValue) (h : (runApiCall base r m tok data resp).1 ≠ []) :
    (runApiCall base r m tok data resp).1[1]? =
      some (.dispatchTracking (asciiUpper (m ++ "_" ++ r)) .pending) := by
  cases h1 : (m == "post" && jsTruthy (getMember data "id")) with
  | true => simp [runApiCall, h1] at h
  | false =>
      cases h2 : ((m == "patch" || m == "delete") && jsIsUndefined (getMember data "id")) with
      | true => simp [runApiCall, h1, h2] at h
      | false => simp [runApiCall, h1, h2]

/-- Witness for C7: a `read` on `book` dispatches the `GET_BOOK` tracking
action with a pending payload. -/
theorem tracking_dispatch_shape_witness :
    (runApiCall "api" "book" "get" "t" none (.arr [])).1 ≠ [] ∧
    (runApiCall "api" "book" "get" "t" none (.arr [])).1[1]? =
      some (.dispatchTracking (asciiUpper ("get" ++ "_" ++ "book")) .pending) ∧
    asciiUpper ("get" ++ "_" ++ "book") = "GET_BOOK" :=
  ⟨fun hh => List.noConfusion hh,
   tracking_dispatch_shape "api" "book" "get" "t" none (.arr [])
     (fun hh => List.noConfusion hh),
   by decide⟩

/-- C10: for `update`/`delete`, the missing-id throw happens exactly when
`data?.id` is `undefined` (no `data`, no `id` key, or an explicitly
`undefined` id); any other falsy id (`null`, `0`, `""`, `false`) passes the
validation, and the request proceeds with the empty final URL segment
`{baseURL}/{R}/`. -/
theorem patch_delete_id_validation (base r v tok : String) (data : Option JSValue)
    (resp : JSValue) (hv : v = "patch" ∨ v = "delete") :
    (runApiCall base r v tok data resp = ([], .error (missingIdError r v)) ↔
      jsIsUndefined (getMember data "id") = true) ∧
    (jsIsUndefined (getMember data "id") = false →
      jsTruthy (getMember data "id") = false →
      (runApiCall base r v tok data resp).1.head? =
        some (.fetch (base ++ "/" ++ r ++ "/") (buildOptions v tok data))) := by
  have hpost : (v == "post") = false := by rcases hv with rfl | rfl <;> decide
  have hor : (v == "patch" || v == "delete") = true := by
    rcases hv with rfl | rfl <;> decide
  constructor
  · constructor
    · intro he
      cases hb : jsIsUndefined (getMember data "id") with
      | true => rfl
      | false => simp [runApiCall, hpost, hor, hb] at he
    · intro hb
      have hu : getMember data "id" = .undefined := jsIsUndefined_eq_true_iff.mp hb
      simp [runApiCall, hpost, hor, hu, jsTruthy, jsIsUndefined]
  · intro hb ht
    simp [runApiCall, hpost, hor, hb, ht, buildUrl_falsy ht]

/-- Witness for C10 at `update` with `data = ⦃id: null⦄`: validation passes
(`null` is not `undefined`) and the URL gets the empty final segment. -/
theorem patch_delete_id_validation_witness :
    (runApiCall "api" "book" "patch" "t" (some (.obj [("id", .null)])) (.obj []) =
        ([], .error (missingIdError "book" "patch")) ↔
      jsIsUndefined (getMember (some (.obj [("id", .null)])) "id") = true) ∧
    (jsIsUndefined (getMember (some (.obj [("id", .null)])) "id") = false →
      jsTruthy (getMember (some (.obj [("id", .null)])) "id") = false →
      (runApiCall "api" "book" "patch" "t" (some (.obj [("id", .null)])) (.obj [])).1.head? =
        some (.fetch ("api" ++ "/" ++ "book" ++ "/")
          (buildOptions "patch" "t" (some (.obj [("id", .null)]))))) :=
  patch_delete_id_validation "api" "book" "patch" "t"
    (some (.obj [("id", .null)])) (.obj []) (Or.inl rfl)

/-- C4: the value handed to the resource's update action — what gets
committed to the store — is the id-keyed mapping of the response when the
resolved body is an array (stated for bodies whose elements have pairwise
distinct id keys; on duplicate keys the source's `keyBy` keeps the last
element), and the body itself, unchanged, when it is not an array. -/
theorem committed_value_normalization (base r m tok : String)
    (data : Option JSValue) (resp : JSValue) :
    (∀ xs, resp = .arr xs →
      (xs.map fun e => jsToString (getField e "id")).Nodup →
      ∀ key w, Event.dispatchUpdate key w ∈ (runApiCall base r m tok data resp).1 →
        w = .obj (xs.map fun e => (jsToString (getField e "id"), e))) ∧
    (jsIsArray resp = false →
      ∀ key w, Event.dispatchUpdate key w ∈ (runApiCall base r m tok data resp).1 →
        w = resp) := by
  constructor
  · rintro xs rfl hnd key w hw
    unfold runApiCall at hw
    split at hw
    · simp at hw
    · split at hw
      · simp at hw
      · simp only [List.mem_cons, List.not_mem_nil, or_false] at hw
        rcases hw with hw | hw | hw
        · exact Event.noConfusion hw
        · exact Event.noConfusion hw
        · injection hw with h1 h2
          subst h2
          simp [normalizeValue, keyBy_eq_map _ _ hnd]
  · intro hna key w hw
    unfold runApiCall at hw
    split at hw
    · simp at hw
    · split at hw
      · simp at hw
      · simp only [List.mem_cons, List.not_mem_nil, or_false] at hw
        rcases hw with hw | hw | hw
        · exact Event.noConfusion hw
        · exact Event.noConfusion hw
        · injection hw with h1 h2
          subst h2
          cases resp <;> first
            | rfl
            | simp [jsIsArray] at hna

/-- Witness for C4: a `read` whose body resolves to
`[⦃id:1⦄, ⦃id:2⦄]` commits `⦃1: ⦃id:1⦄, 2: ⦃id:2⦄⦄`, and a `get` whose body
resolves to the single object `⦃id:5⦄` commits that object unchanged. -/
theorem committed_value_normalization_witness :
    JSValue.obj [("1", .obj [("id", .num 1)]), ("2", .obj [("id", .num 2)])] =
      .obj ([JSValue.obj [("id", .num 1)], .obj [("id", .num 2)]].map fun e =>
        (jsToString (getField e "id"), e)) ∧
    JSValue.obj [("id", .num 5)] = JSValue.obj [("id", .num 5)] :=
  ⟨(committed_value_normalization "api" "book" "get" "t" none
      (.arr [.obj [("id", .num 1)], .obj [("id", .num 2)]])).1
    [.obj [("id", .num 1)], .obj [("id", .num 2)]] rfl (by decide)
    (camelCase ("update_" ++ "book")) _
    (List.Mem.tail _ (List.Mem.tail _ (List.Mem.head _))),
   (committed_value_normalization "api" "book" "get" "t"
      (some (.obj [("id", .num 5)])) (.obj [("id", .num 5)])).2 (by decide)
    (camelCase ("update_" ++ "book")) _
    (List.Mem.tail _ (List.Mem.tail _ (List.Mem.head _)))⟩

/-- Witness for C9 at `data = ⦃id: 0⦄`. -/
theorem create_with_falsy_id_proceeds_witness :
    jsTruthy (.num 0) = false ∧
    runApiCall "api" "book" "post" "t" (some (.obj [("id", .num 0)])) (.obj [("ok", .bool true)]) =
      ([.fetch (buildUrl "api" "book" (.num 0))
          (buildOptions "post" "t" (some (.obj [("id", .num 0)]))),
        .dispatchTracking (asciiUpper ("post" ++ "_" ++ "book")) .pending,
        .dispatchUpdate (camelCase ("update_" ++ "book"))
          (normalizeValue (.obj [("ok", .bool true)]))],
       .ok (normalizeValue (.obj [("ok", .bool true)]))) :=
  ⟨by decide,
   create_with_falsy_id_proceeds "api" "book" "t" (.num 0)
     (.obj [("ok", .bool true)]) (by decide)⟩

/-- C6: for every resource map (its key list has no duplicates, as
JavaScript object keys are unique), the API object has exactly the resource
names as top-level keys, in order, and under every resource exactly the five
operation keys `create, read, get, update, delete`; each is bound to the
request closure `requestFactory` produced, by construction of
`apiFactory`. -/
theorem api_object_shape (base tok : String) (rs : List String)
    (hnd : rs.Nodup) :
    (apiFactory base tok rs).map Prod.fst = rs ∧
    ∀ p ∈ apiFactory base tok rs,
      p.2.map Prod.fst = ["create", "read", "get", "update", "delete"] := by
  unfold apiFactory
  rw [apiBuild_eq _ _ hnd]
  constructor
  · rw [List.map_map]
    have hc : (Prod.fst ∘ fun r => (r, innerFor (requestFactory base tok) r)) =
        id := rfl
    rw [hc, List.map_id]
  · intro p hp
    rw [List.mem_map] at hp
    obtain ⟨r, hr, rfl⟩ := hp
    rfl

/-- Witness for C6 on the two-resource map `⦃book, author⦄`. -/
theorem api_object_shape_witness :
    (["book", "author"] : List String).Nodup ∧
    ((apiFactory "api" "t" ["book", "author"]).map Prod.fst = ["book", "author"] ∧
     ∀ p ∈ apiFactory "api" "t" ["book", "author"],
       p.2.map Prod.fst = ["create", "read", "get", "update", "delete"]) :=
  ⟨by decide, api_object_shape "api" "t" ["book", "author"] (by decide)⟩

/-- C8: under every resource of every produced API object, the five
operations are bound to request functions for exactly the verbs of the fixed
`methods` table — `create→post`, `read→get`, `get→get`, `update→patch`,
`delete→delete`; the table is a closure-local constant, so the binding never
changes for the lifetime of a factory instance. -/
theorem operation_verb_binding (base tok : String) (rs : List String)
    (hnd : rs.Nodup) (r : String) (hr : r ∈ rs) :
    (apiFactory base tok rs).lookup r =
      some [("create", requestFactory base tok r "post"),
            ("read", requestFactory base tok r "get"),
            ("get", requestFactory base tok r "get"),
            ("update", requestFactory base tok r "patch"),
            ("delete", requestFactory base tok r "delete")] := by
  unfold apiFactory
  rw [apiBuild_eq _ _ hnd]
  exact lookup_map_inner _ r rs hr

/-- Witness for C8 on the resource `book`. -/
theorem operation_verb_binding_witness :
    (["book"] : List String).Nodup ∧ "book" ∈ (["book"] : List String) ∧
    (apiFactory "api" "t" ["book"]).lookup "book" =
      some [("create", requestFactory "api" "t" "book" "post"),
            ("read", requestFactory "api" "t" "book" "get"),
            ("get", requestFactory "api" "t" "book" "get"),
            ("update", requestFactory "api" "t" "book" "patch"),
            ("delete", requestFactory "api" "t" "book" "delete")] :=
  ⟨by decide, by decide,
   operation_verb_binding "api" "t" ["book"] (by decide) "book" (by decide)⟩

end ApiJs
